import Mathlib

/-!
Formal model of the MicroView RDMA metric-scraping control and data plane.

The definitions below are a shallow embedding of the C sources of the
repository:

* `on_completion_wc`, `post_read_batch`, `server_step` model the collector's
  per-connection completion handler `on_completion` (the batched `agent-nic`
  variant of `src/rdma-server.c`) together with the surrounding poller loop
  `poll_cq`, the per-slot tick flag `read_remote[i]`, the `terminate[i]` flag
  and the tick thread `tick`.
* `handleNewPod` models the host agent's TCP pod-registration handler
  `handleNewPod` of `c/src/agent.c`.
* `agent_on_completion` models the host agent's RDMA completion handler
  `on_completion` of `src/rdma-agent.c`.
* `podHelloId` models the pod's TCP hello of `container-ipc/pod.c`, and
  `stepSlot` models one slot check of the liveness watcher `poll_pids` of
  `c/src/agent.c`.

Machine integers are modelled as `Nat` (no arithmetic in the modelled paths
overflows: all counters are small, and the 4-byte pod identifier is the exact
value `ntohl` reconstructs from the received bytes).  The blocking
condition-variable wait inside the collector's `on_completion` is modelled by
an explicit `pending` flag on the state: a poller that reaches the wait with
the slot's `read_remote` flag clear parks (`pending := true`) and is resumed
by the next `tick` event, exactly as the pthread condition variable wakes it.
-/

/-- Remote memory-region descriptor: the `(addr, rkey, length)` triple that
travels inside a `MSG_MR` control message (`struct ibv_mr` fields used by the
code: `addr`, `rkey`, `length`). -/
structure PeerMR where
  addr : Nat
  rkey : Nat
  len : Nat
deriving DecidableEq

/-- Control-message tag (`struct message.type` in `rdma-common.h`):
`MSG_MR = 0`, `MSG_DONE = 1`. -/
inductive MsgType where
  | MR
  | DONE
deriving DecidableEq

/-- Control message (`struct message` in `rdma-common.h`): a tag and the
`data.mr` union member (meaningful when the tag is `MR`). -/
structure Msg where
  type : MsgType
  mr : PeerMR
deriving DecidableEq

/-- Work completion (`struct ibv_wc`) as consumed by the handlers:
`success` is `wc->status == IBV_WC_SUCCESS`, `isRecv` is
`wc->opcode & IBV_WC_RECV`, and `msg` is the content the completed receive
deposited in `conn->recv_msg` (meaningful when `isRecv`). -/
structure WC where
  success : Bool
  isRecv : Bool
  msg : Msg
deriving DecidableEq

/-- Send-side state of a connection (`enum send_state` in `rdma-common.h`). -/
inductive SendState where
  | INIT
  | MR_SENT
  | RDMA_SENT
  | DONE_SENT
deriving DecidableEq

/-- Receive-state values (`enum recv_state` in `rdma-common.h`).  The code
increments the field with `conn->recv_state++`, so it is modelled as `Nat`. -/
def RS_INIT : Nat := 0

/-- Receive-state `RS_MR_RECV` (the value after one received completion). -/
def RS_MR_RECV : Nat := 1

/-- Receive-state `RS_DONE_RECV`. -/
def RS_DONE_RECV : Nat := 2

/-- Work-request opcode (`enum ibv_wr_opcode`, restricted to the ones the
modelled code posts). -/
inductive Opcode where
  | RDMA_READ
  | RDMA_WRITE
  | SEND
deriving DecidableEq

/-- Collector-side per-connection state (`struct connection` of
`rdma-common.h` as used by the `agent-nic` variant of `rdma-server.c`).
`peer_mr_set` is a ghost flag recording whether the `memcpy` from a received
`MSG_MR` has ever initialised `peer_mr`; in the C code the field holds
uninitialised memory until then, modelled by an arbitrary initial value.
`local_addr k` is the address of the k-th local read-sink buffer
`rdma_local_region[k]` and `local_lkey k` the local key of
`rdma_local_mr[k]`. -/
structure Conn where
  recv_state : Nat
  send_state : SendState
  peer_mr : PeerMR
  peer_mr_set : Bool
  local_addr : Nat → Nat
  local_lkey : Nat → Nat

/-- Configuration of the collector process: `num_mr` is N (mrs-per-pod,
`argv[4]`), `block_size` is `argv[3]`, `num_active` is
`num_active_connections`. -/
structure Globals where
  num_mr : Nat
  block_size : Nat
  num_active : Nat

/-- One RDMA work request as built by the batch loop of `on_completion` in
`rdma-server.c` (lines 549-574).  `sink` is the index k of the local sink
buffer the request scatters into; `laddr`/`lkey` are `sge->addr` and
`sge->lkey`; `length` is `sge->length`. -/
structure WR where
  opcode : Opcode
  signaled : Bool
  remote_addr : Nat
  rkey : Nat
  sink : Nat
  laddr : Nat
  length : Nat
  lkey : Nat
deriving DecidableEq

/-- The k-th work request of a batch (`rdma-server.c` lines 551-566): an
`IBV_WR_RDMA_READ` with `IBV_SEND_SIGNALED`, remote address
`conn->peer_mr.addr` (offset 0) and key `conn->peer_mr.rkey`, scattering
`block_size` bytes into local buffer `rdma_local_region[k]` with key
`rdma_local_mr[k]->lkey`. -/
def mkWR (g : Globals) (c : Conn) (k : Nat) : WR :=
  { opcode := Opcode.RDMA_READ
    signaled := true
    remote_addr := c.peer_mr.addr
    rkey := c.peer_mr.rkey
    sink := k
    laddr := c.local_addr k
    length := g.block_size
    lkey := c.local_lkey k }

/-- The chained batch of `num_mr` read work requests built by the
`for (int k=0; k < num_mr; k++)` loop of `on_completion`, in chain order
(k = 0 is the head `head_wr`, each later request is linked via
`prev_wr->next`). -/
def buildBatch (g : Globals) (c : Conn) : List WR :=
  (List.range g.num_mr).map (mkWR g c)

/-- Full state visible to one collector poller thread: its connection, the
loop-local `num_read_completed` counter of `poll_cq`, the slot's
`read_remote[i]` and `terminate[i]` flags, the global latency meter
(`global_lm.num_finished` and the number of samples it has recorded), and the
per-connection meter's sample count.  `pending` models the poller parked in
the `pthread_cond_wait` loop of `on_completion`; `err` models the poller
having left its loop (a nonzero return of `on_completion`); `posted` records,
one entry per `ibv_post_send` call, each chained batch handed to the NIC;
`reads_done` is a ghost counter of successful READ completions processed. -/
structure St where
  conn : Conn
  num_read_completed : Nat
  read_remote : Bool
  terminate : Bool
  pending : Bool
  err : Bool
  posted : List (List WR)
  lm_samples : Nat
  global_num_finished : Nat
  global_samples : Nat
  reads_done : Nat

/-- First phase of the collector's `on_completion` (`rdma-server.c` lines
495-540): return value and state after the status check, the RECV branch
(advance `recv_state`, copy the descriptor when the tag is `MSG_MR`) or the
READ branch (increment the completed counter; on the N-th completion record a
per-connection latency sample, bump `global_lm.num_finished` and, when it
equals `num_active_connections`, record the global round sample). -/
def on_completion_wc (g : Globals) (w : WC) (s : St) : Nat × St :=
  if w.success = false then
    (1, s)
  else if w.isRecv = true then
    let c := { s.conn with recv_state := s.conn.recv_state + 1 }
    let c :=
      if w.msg.type = MsgType.MR then
        { c with peer_mr := w.msg.mr, peer_mr_set := true }
      else c
    (0, { s with conn := c })
  else
    let c := { s.conn with send_state := SendState.RDMA_SENT }
    let n := s.num_read_completed + 1
    let s1 := { s with conn := c, num_read_completed := n,
                       reads_done := s.reads_done + 1 }
    if n = g.num_mr then
      let s2 := { s1 with lm_samples := s1.lm_samples + 1,
                          global_num_finished := s1.global_num_finished + 1 }
      if s2.global_num_finished = g.num_active then
        (0, { s2 with global_samples := s2.global_samples + 1 })
      else
        (0, s2)
    else
      (0, s1)

/-- Resumption past the condition-variable wait of `on_completion`
(`rdma-server.c` lines 577-595): the woken poller clears `read_remote[i]`,
reads `terminate[i]` and either quits (return 1, modelled by `err`) or posts
the chained batch with a single `ibv_post_send` and resets the completed
counter to zero. -/
def post_read_batch (g : Globals) (s : St) : St :=
  let s1 := { s with read_remote := false, pending := false }
  if s1.terminate = true then
    { s1 with err := true }
  else
    { s1 with posted := s1.posted ++ [buildBatch g s1.conn],
              num_read_completed := 0 }

/-- Effect of one iteration of the tick thread (`rdma-server.c` lines
269-287) on one connection slot: zero `global_lm.num_finished`, restart the
global clock, set the slot's `read_remote` flag and signal its condition
variable. -/
def tick_signal (s : St) : St :=
  { s with read_remote := true, global_num_finished := 0 }

/-- Events seen by one poller slot: a work completion dispatched by
`poll_cq`, or one signal from the tick thread. -/
inductive Ev where
  | wc (w : WC)
  | tick

/-- The arming check of `on_completion` (`rdma-server.c` line 543): when
`recv_state == RS_MR_RECV && num_read_completed == num_mr` the handler builds
the batch and reaches the condition-variable wait — it proceeds at once if
the slot's `read_remote` flag is already set, and otherwise parks the poller
on the condition variable (`pending`). -/
def arm_or_post (g : Globals) (s1 : St) : St :=
  if s1.conn.recv_state = RS_MR_RECV ∧ s1.num_read_completed = g.num_mr then
    if s1.read_remote = true then post_read_batch g s1
    else { s1 with pending := true }
  else s1

/-- One interleaving step of the per-connection poller and the tick thread.
A `wc` event runs `on_completion`: the first phase, then the arming block
(`arm_or_post`).  A `tick` event sets the slot flag (and resets the global
round) and, if the poller is parked, wakes it to run the rest of the arming
block.  After the poller has exited its loop (`err`) no further events
affect it. -/
def server_step (g : Globals) (e : Ev) (s : St) : St :=
  if s.err = true then s
  else
    match e with
    | Ev.tick =>
        let s1 := tick_signal s
        if s1.pending = true then post_read_batch g s1 else s1
    | Ev.wc w =>
        if s.pending = true then s
        else
          if (on_completion_wc g w s).1 ≠ 0 then
            { (on_completion_wc g w s).2 with err := true }
          else arm_or_post g (on_completion_wc g w s).2

/-- A run of the poller slot over a sequence of events. -/
def server_run (g : Globals) (evs : List Ev) (s : St) : St :=
  evs.foldl (fun s e => server_step g e s) s

/-- Initial per-connection state right after `build_connection` and the entry
of `poll_cq` (`rdma-server.c` lines 358-380 and 426-431): `recv_state` is
`RS_INIT`, `send_state` is `SS_INIT`, `peer_mr` holds whatever was in the
freshly `malloc`ed memory (the arbitrary `pm`), the loop-local
`num_read_completed` starts at `num_mr`, and all slot flags start clear
(the global arrays are zero-initialised). -/
def initConn (pm : PeerMR) (la lk : Nat → Nat) : Conn :=
  { recv_state := RS_INIT
    send_state := SendState.INIT
    peer_mr := pm
    peer_mr_set := false
    local_addr := la
    local_lkey := lk }

/-- Initial poller-slot state (see `initConn`). -/
def initState (g : Globals) (pm : PeerMR) (la lk : Nat → Nat) : St :=
  { conn := initConn pm la lk
    num_read_completed := g.num_mr
    read_remote := false
    terminate := false
    pending := false
    err := false
    posted := []
    lm_samples := 0
    global_num_finished := 0
    global_samples := 0
    reads_done := 0 }

/-- State invariant of a poller slot: a parked poller is parked with its
arming condition true, and the completed-read counter balances the posted
batches against the READ completions processed (the counter starts at
`num_mr`). -/
def ServerInv (g : Globals) (s : St) : Prop :=
  (s.pending = true →
     s.conn.recv_state = RS_MR_RECV ∧ s.num_read_completed = g.num_mr) ∧
  g.num_mr * s.posted.length + s.num_read_completed = g.num_mr + s.reads_done

/-! ### Host agent: RDMA completion handler (`src/rdma-agent.c`) -/

/-- Host-agent view of its per-connection state (the fields `on_completion`
of `rdma-agent.c` touches). -/
structure AConn where
  recv_state : Nat
  send_state : SendState
deriving DecidableEq

/-- Outcome of one call of the host agent's `on_completion`
(`rdma-agent.c` lines 197-233): either the whole process exits (`exit(1)`),
or the handler returns a code to `poll_cq` (1 makes that connection's poller
leave its loop) with the updated connection; `reposted` records whether a
fresh receive was posted (`post_receives`). -/
inductive AgentWcResult where
  | processExit (code : Nat)
  | ret (code : Nat) (c : AConn) (reposted : Bool)
deriving DecidableEq

/-- The host agent's `on_completion` (`rdma-agent.c` lines 197-233): a
non-success status makes the handler return 1 (that poller exits); a receive
completion whose tag is not `MSG_DONE` runs `exit(1)`; a `MSG_DONE` receive
sets `recv_state` to `RS_DONE_RECV` and rearms the receive; any other
completion is the send of the MR message and sets `send_state`. -/
def agent_on_completion (w : WC) (c : AConn) : AgentWcResult :=
  if w.success = false then
    AgentWcResult.ret 1 c false
  else if w.isRecv = true then
    if w.msg.type ≠ MsgType.DONE then
      AgentWcResult.processExit 1
    else
      AgentWcResult.ret 0 { c with recv_state := RS_DONE_RECV } true
  else
    AgentWcResult.ret 0 { c with send_state := SendState.MR_SENT } false

/-! ### Host agent: TCP pod-registration handler (`c/src/agent.c`) -/

/-- Observable actions of one run of `handleNewPod` (`c/src/agent.c` lines
127-170), in program order. -/
inductive PodHandlerStep where
  | recvPodId
  | shmOpen (name : List Nat) (creatRdwr : Bool) (mode : Nat)
  | ftruncateTo (lenBytes : Nat)
  | sendBytes (bytes : List Nat)
  | closeSocket
  | rdmaSession (podID : Nat)
deriving DecidableEq

/-- How a run of the handler thread ends: `processExit code` models a libc
`exit(code)` — it terminates the entire agent process, acceptor loop
included — while `threadExit` models `pthread_exit`, which ends only this
handler thread. -/
inductive HandlerTerminal where
  | processExit (code : Nat)
  | threadExit
deriving DecidableEq

/-- One complete run of the handler: the actions it performed and how it
ended. -/
structure HandlerRun where
  steps : List PodHandlerStep
  terminal : HandlerTerminal
deriving DecidableEq

/-- Reconstruction of the 4-byte pod identifier: the handler `recv`s four
bytes off the wire (network byte order, `b0` first) into a `uint32_t` and
applies `ntohl`, yielding the big-endian value of the bytes. -/
def ntohlBytes (b0 b1 b2 b3 : Nat) : Nat :=
  ((b0 * 256 + b1) * 256 + b2) * 256 + b3

/-- Decimal digits of a natural number, most significant first (empty for 0);
the digit sequence `sprintf %u` produces for a positive value. -/
def decDigits : Nat → List Nat
  | 0 => []
  | n + 1 => decDigits ((n + 1) / 10) ++ [(n + 1) % 10]

/-- ASCII bytes `sprintf "%u"` writes for a `uint32_t` value (a lone `'0'`
for zero). -/
def decBytes (n : Nat) : List Nat :=
  if n = 0 then [48] else (decDigits n).map (fun d => d + 48)

/-- ASCII bytes of the shared-memory object name `sprintf(shm_name, "%s-%u",
Q_NAME, podID)` builds, with `Q_NAME = "shm"`: the bytes of `shm-` followed
by the decimal digits of the pod id. -/
def shmNameBytes (podID : Nat) : List Nat :=
  [115, 104, 109, 45] ++ decBytes podID

/-- The 256 bytes `send(clientSocket, &shm_name, MAX_LEN, 0)` puts on the
socket: the 256-byte buffer was `memset` to zero and then `sprintf`ed with
the name, so the wire image is the name bytes followed by zero padding,
truncated to the buffer's 256 bytes. -/
def reply256 (name : List Nat) : List Nat :=
  (name ++ List.replicate 256 0).take 256

/-- The handler `handleNewPod` of `c/src/agent.c` (lines 127-170): receive
the 4-byte pod id (on failure `exit(EXIT_FAILURE)`), build the name
`shm-<pid>`, `shm_open` it with `O_CREAT | O_RDWR` and mode `0666` (on
failure `exit(EXIT_FAILURE)`), `ftruncate` it to `block_size`, send the
256-byte name buffer back, close the TCP socket, run the RDMA session, and
end the thread with `pthread_exit`.  `recvOk` models the `recv` returning a
positive count; `shmOpenOk` models `shm_open` not returning -1. -/
def handleNewPod (blockSize : Nat) (recvOk : Bool) (b0 b1 b2 b3 : Nat)
    (shmOpenOk : Bool) : HandlerRun :=
  if recvOk = false then
    { steps := [PodHandlerStep.recvPodId]
      terminal := HandlerTerminal.processExit 1 }
  else
    let podID := ntohlBytes b0 b1 b2 b3
    let name := shmNameBytes podID
    if shmOpenOk = false then
      { steps := [PodHandlerStep.recvPodId]
        terminal := HandlerTerminal.processExit 1 }
    else
      { steps :=
          [PodHandlerStep.recvPodId,
           PodHandlerStep.shmOpen name true 0o666,
           PodHandlerStep.ftruncateTo blockSize,
           PodHandlerStep.sendBytes (reply256 name),
           PodHandlerStep.closeSocket,
           PodHandlerStep.rdmaSession podID]
        terminal := HandlerTerminal.threadExit }

/-! ### Pod hello and liveness watcher -/

/-- The identifier the pod sends in its TCP hello (`container-ipc/pod.c`
line 89): `htonl(rand() % 10)` — the current `rand()` output reduced
modulo 10, not the pod's process id. -/
def podHelloId (randVal : Nat) : Nat :=
  randVal % 10

/-- One slot check of the liveness watcher `poll_pids` (`c/src/agent.c`
lines 107-120): a non-sentinel pid whose process no longer exists
(`kill(pid, 0) == -1`, modelled by `alive pid = false`) gets its connection
disconnected and its slot set to the sentinel -1; a sentinel slot is left
alone.  The returned Bool records whether `rdma_disconnect` was called. -/
def stepSlot (alive : Int → Bool) (p : Int) : Int × Bool :=
  if p ≠ -1 ∧ alive p = false then (-1, true) else (p, false)

/-- One sweep of the watcher over the control-plane table. -/
def pollSlots (alive : Int → Bool) (slots : List Int) : List (Int × Bool) :=
  slots.map (stepSlot alive)

/-! ### Witness fixtures -/

/-- Witness configuration: one MR per pod, block size 4, one active
connection. -/
def gW : Globals := { num_mr := 1, block_size := 4, num_active := 1 }

/-- Witness sink-buffer addresses. -/
def laW : Nat → Nat := fun k => 100 + k

/-- Witness sink-buffer local keys. -/
def lkW : Nat → Nat := fun k => 200 + k

/-- Witness peer memory-region descriptor. -/
def pmW : PeerMR := { addr := 7, rkey := 9, len := 4 }

/-- Witness work completion: a successful receive carrying a `MSG_MR`. -/
def wcMRW : WC := { success := true, isRecv := true,
                    msg := { type := MsgType.MR, mr := pmW } }

/-- Witness state: a poller parked on the condition variable after its first
batch completed (its arming condition holds). -/
def sArmedW : St :=
  { conn := { recv_state := RS_MR_RECV, send_state := SendState.RDMA_SENT,
              peer_mr := pmW, peer_mr_set := true,
              local_addr := laW, local_lkey := lkW }
    num_read_completed := 1
    read_remote := false
    terminate := false
    pending := true
    err := false
    posted := []
    lm_samples := 1
    global_num_finished := 1
    global_samples := 1
    reads_done := 0 }

/-- Witness message payload. -/
def mW : Msg := { type := MsgType.MR, mr := pmW }

/-- Witness state: an unparked poller whose batch has one outstanding READ
left (`num_read_completed = 0`, N = 1). -/
def sReadyW : St := { sArmedW with num_read_completed := 0, pending := false }

/-- A successful receive completion carrying tag `t` and descriptor `m`
(the contents of `conn->recv_msg` at completion time). -/
def recvWC (t : MsgType) (m : PeerMR) : WC :=
  { success := true, isRecv := true, msg := { type := t, mr := m } }

/-! ### Invariant lemmas for the collector poller -/

theorem serverInv_init (g : Globals) (pm : PeerMR) (la lk : Nat → Nat) :
    ServerInv g (initState g pm la lk) := by
  constructor
  · intro h
    simp [initState] at h
  · simp [initState]

theorem serverInv_post (g : Globals) (s1 : St)
    (hn : s1.num_read_completed = g.num_mr)
    (h2 : g.num_mr * s1.posted.length + s1.num_read_completed
            = g.num_mr + s1.reads_done) :
    ServerInv g (post_read_batch g s1) := by
  obtain ⟨c, nrc, rr, term, pend, err, posted, lm, gnf, gs, rd⟩ := s1
  simp only at hn h2
  subst hn
  cases term with
  | true =>
    constructor
    · intro hx
      simp [post_read_batch] at hx
    · simpa [post_read_batch] using h2
  | false =>
    constructor
    · intro hx
      simp [post_read_batch] at hx
    · simp [post_read_batch, Nat.mul_succ]
      omega

theorem serverInv_arm_or_post (g : Globals) (s1 : St)
    (hp : s1.pending = false)
    (h2 : g.num_mr * s1.posted.length + s1.num_read_completed
            = g.num_mr + s1.reads_done) :
    ServerInv g (arm_or_post g s1) := by
  by_cases harm : s1.conn.recv_state = RS_MR_RECV ∧
      s1.num_read_completed = g.num_mr
  · by_cases hrr : s1.read_remote = true
    · rw [arm_or_post, if_pos harm, if_pos hrr]
      exact serverInv_post g s1 harm.2 h2
    · rw [arm_or_post, if_pos harm, if_neg hrr]
      constructor
      · intro _
        obtain ⟨c, nrc, rr, term, pend, err, posted, lm, gnf, gs, rd⟩ := s1
        simpa using harm
      · obtain ⟨c, nrc, rr, term, pend, err, posted, lm, gnf, gs, rd⟩ := s1
        simpa using h2
  · rw [arm_or_post, if_neg harm]
    constructor
    · intro hx
      rw [hp] at hx
      exact absurd hx (by simp)
    · exact h2

theorem on_completion_wc_frame (g : Globals) (w : WC) (s : St) :
    (on_completion_wc g w s).2.posted = s.posted ∧
    (on_completion_wc g w s).2.pending = s.pending ∧
    (on_completion_wc g w s).2.read_remote = s.read_remote ∧
    (on_completion_wc g w s).2.terminate = s.terminate ∧
    (on_completion_wc g w s).2.err = s.err ∧
    (on_completion_wc g w s).2.num_read_completed + s.reads_done
      = s.num_read_completed + (on_completion_wc g w s).2.reads_done ∧
    ((on_completion_wc g w s).2.num_read_completed = s.num_read_completed ∨
     (on_completion_wc g w s).2.num_read_completed
       = s.num_read_completed + 1) := by
  obtain ⟨c, nrc, rr, term, pend, err, posted, lm, gnf, gs, rd⟩ := s
  obtain ⟨ws, wrecv, wmsg⟩ := w
  cases ws <;> cases wrecv <;>
    simp only [on_completion_wc] <;>
    split_ifs <;> simp <;> omega

theorem serverInv_step (g : Globals) (e : Ev) (s : St) (h : ServerInv g s) :
    ServerInv g (server_step g e s) := by
  obtain ⟨h1, h2⟩ := h
  by_cases herr : s.err = true
  · cases e <;> rw [server_step, if_pos herr] <;> exact ⟨h1, h2⟩
  · cases e with
    | tick =>
      rw [server_step, if_neg herr]
      by_cases hp : s.pending = true
      · have hq : (tick_signal s).pending = true := by
          simpa [tick_signal] using hp
        rw [if_pos hq]
        refine serverInv_post g (tick_signal s) ?_ ?_
        · simpa [tick_signal] using (h1 hp).2
        · simpa [tick_signal] using h2
      · have hq : ¬(tick_signal s).pending = true := by
          simpa [tick_signal] using hp
        rw [if_neg hq]
        constructor
        · intro hx
          exact absurd (by simpa [tick_signal] using hx) hp
        · simpa [tick_signal] using h2
    | wc w =>
      rw [server_step, if_neg herr]
      by_cases hp : s.pending = true
      · rw [if_pos hp]
        exact ⟨h1, h2⟩
      · rw [if_neg hp]
        obtain ⟨f1, f2, f3, f4, f5, f6, f7⟩ := on_completion_wc_frame g w s
        by_cases hr : (on_completion_wc g w s).1 ≠ 0
        · rw [if_pos hr]
          constructor
          · intro hx
            simp only [St.pending] at hx
            rw [show ({ (on_completion_wc g w s).2 with err := true } : St).pending
                  = (on_completion_wc g w s).2.pending from rfl] at hx
            rw [f2] at hx
            exact absurd hx hp
          · rw [show ({ (on_completion_wc g w s).2 with err := true } : St).posted
                  = (on_completion_wc g w s).2.posted from rfl,
                show ({ (on_completion_wc g w s).2 with err := true } : St).num_read_completed
                  = (on_completion_wc g w s).2.num_read_completed from rfl,
                show ({ (on_completion_wc g w s).2 with err := true } : St).reads_done
                  = (on_completion_wc g w s).2.reads_done from rfl,
                f1]
            omega
        · rw [if_neg hr]
          refine serverInv_arm_or_post g _ ?_ ?_
          · rw [f2]
            simpa using hp
          · rw [f1]
            omega

theorem serverInv_run (g : Globals) (evs : List Ev) (s : St)
    (h : ServerInv g s) : ServerInv g (server_run g evs s) := by
  induction evs generalizing s with
  | nil => simpa [server_run] using h
  | cons e evs ih =>
    rw [server_run, List.foldl_cons]
    exact ih (server_step g e s) (serverInv_step g e s h)

theorem post_read_batch_halt (g : Globals) (s1 : St) (ht : s1.terminate = true) :
    post_read_batch g s1 =
      { s1 with read_remote := false, pending := false, err := true } := by
  obtain ⟨c, nrc, rr, term, pend, err, posted, lm, gnf, gs, rd⟩ := s1
  simp only at ht
  subst ht
  simp [post_read_batch]

theorem post_read_batch_go (g : Globals) (s1 : St) (ht : s1.terminate = false) :
    post_read_batch g s1 =
      { s1 with read_remote := false, pending := false,
                posted := s1.posted ++ [buildBatch g s1.conn],
                num_read_completed := 0 } := by
  obtain ⟨c, nrc, rr, term, pend, err, posted, lm, gnf, gs, rd⟩ := s1
  simp only at ht
  subst ht
  simp [post_read_batch]

theorem arm_or_post_posting (g : Globals) (s1 : St)
    (hlen : (arm_or_post g s1).posted.length ≠ s1.posted.length) :
    s1.conn.recv_state = RS_MR_RECV ∧ s1.num_read_completed = g.num_mr ∧
    s1.read_remote = true ∧ s1.terminate = false ∧
    arm_or_post g s1 =
      { s1 with read_remote := false, pending := false,
                posted := s1.posted ++ [buildBatch g s1.conn],
                num_read_completed := 0 } := by
  by_cases harm : s1.conn.recv_state = RS_MR_RECV ∧
      s1.num_read_completed = g.num_mr
  · by_cases hrr : s1.read_remote = true
    · by_cases ht : s1.terminate = true
      · exfalso
        rw [arm_or_post, if_pos harm, if_pos hrr,
            post_read_batch_halt g s1 ht] at hlen
        exact hlen rfl
      · have ht' : s1.terminate = false := by
          simpa using ht
        exact ⟨harm.1, harm.2, hrr, ht',
          by rw [arm_or_post, if_pos harm, if_pos hrr,
                 post_read_batch_go g s1 ht']⟩
    · exfalso
      rw [arm_or_post, if_pos harm, if_neg hrr] at hlen
      exact hlen rfl
  · exfalso
    rw [arm_or_post, if_neg harm] at hlen
    exact hlen rfl

theorem server_step_posting (g : Globals) (e : Ev) (s : St)
    (h : ServerInv g s)
    (hlen : (server_step g e s).posted.length ≠ s.posted.length) :
    (server_step g e s).posted.length = s.posted.length + 1 ∧
    (server_step g e s).conn.recv_state = RS_MR_RECV ∧
    (server_step g e s).num_read_completed = 0 ∧
    (server_step g e s).read_remote = false ∧
    (s.num_read_completed = g.num_mr ∨
     s.num_read_completed + 1 = g.num_mr) := by
  obtain ⟨h1, h2⟩ := h
  by_cases herr : s.err = true
  · exfalso
    cases e <;> rw [server_step, if_pos herr] at hlen <;> exact hlen rfl
  · cases e with
    | tick =>
      rw [server_step, if_neg herr] at hlen ⊢
      by_cases hp : s.pending = true
      · have hq : (tick_signal s).pending = true := by
          simpa [tick_signal] using hp
        rw [if_pos hq] at hlen ⊢
        obtain ⟨hrs, hn⟩ := h1 hp
        by_cases ht : (tick_signal s).terminate = true
        · exfalso
          rw [post_read_batch_halt g _ ht] at hlen
          exact hlen (by simp [tick_signal])
        · have ht' : (tick_signal s).terminate = false := by simpa using ht
          rw [post_read_batch_go g _ ht']
          refine ⟨by simp [tick_signal], by simpa [tick_signal] using hrs,
            by simp, by simp, Or.inl hn⟩
      · exfalso
        have hq : ¬(tick_signal s).pending = true := by
          simpa [tick_signal] using hp
        rw [if_neg hq] at hlen
        exact hlen (by simp [tick_signal])
    | wc w =>
      rw [server_step, if_neg herr] at hlen ⊢
      by_cases hp : s.pending = true
      · exfalso
        rw [if_pos hp] at hlen
        exact hlen rfl
      · rw [if_neg hp] at hlen ⊢
        obtain ⟨f1, f2, f3, f4, f5, f6, f7⟩ := on_completion_wc_frame g w s
        by_cases hr : (on_completion_wc g w s).1 ≠ 0
        · exfalso
          rw [if_pos hr] at hlen
          exact hlen (by rw [show ({ (on_completion_wc g w s).2 with
            err := true } : St).posted = (on_completion_wc g w s).2.posted
            from rfl, f1])
        · rw [if_neg hr] at hlen ⊢
          have hlen2 : (arm_or_post g (on_completion_wc g w s).2).posted.length
              ≠ (on_completion_wc g w s).2.posted.length := by
            rw [f1]
            exact hlen
          obtain ⟨a1, a2, a3, a4, a5⟩ :=
            arm_or_post_posting g (on_completion_wc g w s).2 hlen2
          rw [a5]
          refine ⟨by simp [f1], by simpa using a1, by simp, by simp, ?_⟩
          rcases f7 with hsame | hsucc
          · exact Or.inl (by rw [← hsame]; exact a2)
          · exact Or.inr (by rw [← hsucc]; exact a2)

/-! ### Claim theorems -/

/-- C1: on the collector, a batch of RDMA READ work requests is posted only
when the connection's recv-state is `RS_MR_RECV`, the completed-read counter
equals N (`num_mr`) at the moment of posting (either already, or reached by
the completion being handled), and the per-slot tick flag has been consumed
(it is clear after the post); the completed counter is reset to zero
immediately after posting.  Consequently, starting from the initial poller
state, batch k+1 is posted only after at least k·N READ completions have been
processed, so it is never posted before all N completions of batch k have
returned. -/
theorem read_batch_posting_invariant (g : Globals) :
    (∀ (e : Ev) (s : St), ServerInv g s →
       (server_step g e s).posted.length ≠ s.posted.length →
       (server_step g e s).posted.length = s.posted.length + 1 ∧
       (server_step g e s).conn.recv_state = RS_MR_RECV ∧
       (server_step g e s).num_read_completed = 0 ∧
       (server_step g e s).read_remote = false ∧
       (s.num_read_completed = g.num_mr ∨
        s.num_read_completed + 1 = g.num_mr)) ∧
    (∀ (pm : PeerMR) (la lk : Nat → Nat) (evs : List Ev) (k : Nat),
       (server_run g evs (initState g pm la lk)).posted.length = k + 1 →
       g.num_mr * k ≤ (server_run g evs (initState g pm la lk)).reads_done) := by
  constructor
  · exact fun e s h hlen => server_step_posting g e s h hlen
  · intro pm la lk evs k hk
    obtain ⟨-, h2⟩ := serverInv_run g evs _ (serverInv_init g pm la lk)
    rw [hk, Nat.mul_succ] at h2
    omega

/-- Witness for C1: a concrete posting step (a parked armed poller woken by a
tick) satisfies the posting conditions, and a concrete two-event run posting
its first batch has processed at least zero reads. -/
theorem read_batch_posting_invariant_witness :
    ((server_step gW Ev.tick sArmedW).posted.length
        = sArmedW.posted.length + 1 ∧
     (server_step gW Ev.tick sArmedW).conn.recv_state = RS_MR_RECV ∧
     (server_step gW Ev.tick sArmedW).num_read_completed = 0 ∧
     (server_step gW Ev.tick sArmedW).read_remote = false ∧
     (sArmedW.num_read_completed = gW.num_mr ∨
      sArmedW.num_read_completed + 1 = gW.num_mr)) ∧
    gW.num_mr * 0 ≤
      (server_run gW [Ev.wc wcMRW, Ev.tick]
        (initState gW pmW laW lkW)).reads_done := by
  constructor
  · exact (read_batch_posting_invariant gW).1 Ev.tick sArmedW
      (by constructor
          · intro _
            exact ⟨rfl, rfl⟩
          · decide)
      (by decide)
  · exact (read_batch_posting_invariant gW).2 pmW laW lkW
      [Ev.wc wcMRW, Ev.tick] 0 (by decide)

/-- C2: the per-connection tick flag is one-shot with freshness-not-backlog
semantics.  The tick thread sets the slot flag (`tick_signal`); ticks are
absorbed while the poller is not parked (a second tick changes nothing
beyond the first, so missed ticks do not queue); and a parked poller woken
by a tick clears the flag, posts exactly one batch, and a further elapsed
tick still leaves exactly one posted batch — never one batch per missed
tick. -/
theorem tick_one_shot_freshness (g : Globals) :
    (∀ s : St, (tick_signal s).read_remote = true) ∧
    (∀ s : St, s.pending = false →
       server_step g Ev.tick (server_step g Ev.tick s)
         = server_step g Ev.tick s) ∧
    (∀ s : St, s.err = false → s.pending = true → s.terminate = false →
       (server_step g Ev.tick s).read_remote = false ∧
       (server_step g Ev.tick s).pending = false ∧
       (server_step g Ev.tick s).posted.length = s.posted.length + 1 ∧
       (server_step g Ev.tick (server_step g Ev.tick s)).posted.length
         = s.posted.length + 1) := by
  refine ⟨fun s => rfl, ?_, ?_⟩
  · intro s hp
    obtain ⟨c, nrc, rr, term, pend, err, posted, lm, gnf, gs, rd⟩ := s
    simp only at hp
    subst hp
    cases err with
    | true => rfl
    | false => simp [server_step, tick_signal]
  · intro s herr hp ht
    obtain ⟨c, nrc, rr, term, pend, err, posted, lm, gnf, gs, rd⟩ := s
    simp only at herr hp ht
    subst herr
    subst hp
    subst ht
    refine ⟨?_, ?_, ?_, ?_⟩ <;>
      simp [server_step, tick_signal, post_read_batch]

/-- Witness for C2: a parked armed poller woken by one tick posts exactly one
batch with the flag consumed, a second tick adds nothing, and double ticks on
a non-parked state coincide with a single tick. -/
theorem tick_one_shot_freshness_witness :
    ((server_step gW Ev.tick sArmedW).read_remote = false ∧
     (server_step gW Ev.tick sArmedW).pending = false ∧
     (server_step gW Ev.tick sArmedW).posted.length
       = sArmedW.posted.length + 1 ∧
     (server_step gW Ev.tick (server_step gW Ev.tick sArmedW)).posted.length
       = sArmedW.posted.length + 1) ∧
    server_step gW Ev.tick
        (server_step gW Ev.tick (initState gW pmW laW lkW))
      = server_step gW Ev.tick (initState gW pmW laW lkW) := by
  constructor
  · exact (tick_one_shot_freshness gW).2.2 sArmedW rfl rfl rfl
  · exact (tick_one_shot_freshness gW).2.1 (initState gW pmW laW lkW) rfl

theorem server_step_read_mid (g : Globals) (m : Msg) (s : St)
    (herr : s.err = false) (hp : s.pending = false)
    (hne : ¬s.num_read_completed + 1 = g.num_mr) :
    server_step g (Ev.wc { success := true, isRecv := false, msg := m }) s =
      { s with conn := { s.conn with send_state := SendState.RDMA_SENT },
               num_read_completed := s.num_read_completed + 1,
               reads_done := s.reads_done + 1 } := by
  obtain ⟨c, nrc, rr, term, pend, err, posted, lm, gnf, gs, rd⟩ := s
  simp only at herr hp hne
  subst herr
  subst hp
  simp [server_step, on_completion_wc, arm_or_post, hne]

theorem server_step_read_final (g : Globals) (m : Msg) (s : St)
    (herr : s.err = false) (hp : s.pending = false)
    (heq : s.num_read_completed + 1 = g.num_mr) :
    (server_step g (Ev.wc { success := true, isRecv := false, msg := m })
        s).global_num_finished = s.global_num_finished + 1 ∧
    (server_step g (Ev.wc { success := true, isRecv := false, msg := m })
        s).lm_samples = s.lm_samples + 1 ∧
    ((server_step g (Ev.wc { success := true, isRecv := false, msg := m })
        s).global_samples = s.global_samples + 1 ↔
      s.global_num_finished + 1 = g.num_active) := by
  obtain ⟨c, nrc, rr, term, pend, err, posted, lm, gnf, gs, rd⟩ := s
  simp only at herr hp heq
  subst herr
  subst hp
  simp only [server_step, on_completion_wc, arm_or_post, post_read_batch,
    heq]
  split_ifs <;> simp_all

theorem round_of_reads_finishes_once (g : Globals) (m : Msg) :
    ∀ (k : Nat) (s : St), s.err = false → s.pending = false →
      s.num_read_completed + k = g.num_mr → 1 ≤ k →
      (server_run g
          (List.replicate k
            (Ev.wc { success := true, isRecv := false, msg := m }))
          s).global_num_finished = s.global_num_finished + 1 := by
  intro k
  induction k with
  | zero =>
    intro s _ _ _ hk
    exact absurd hk (by omega)
  | succ k ih =>
    intro s herr hp hsum _
    rw [List.replicate_succ, server_run, List.foldl_cons]
    rcases Nat.eq_zero_or_pos k with h0 | hpos
    · subst h0
      simp only [List.replicate_zero, List.foldl_nil]
      exact (server_step_read_final g m s herr hp (by omega)).1
    · have hne : ¬s.num_read_completed + 1 = g.num_mr := by omega
      rw [server_step_read_mid g m s herr hp hne]
      exact ih _ herr hp
        (show s.num_read_completed + 1 + k = g.num_mr by omega) hpos

/-- C3: in the collector's `on_completion`, a successful READ completion
always increments the connection's completed-read counter, but the global
round's finished counter, the global round sample and the per-connection
latency sample are updated only on the completion that brings the counter to
N: below N nothing global changes; at N the per-connection meter records one
sample, the finished counter is incremented exactly once, and the global
round's elapsed time is recorded exactly when the incremented finished
counter equals the number of active connections.  Over a full round (N
consecutive successful READ completions) the finished counter grows by
exactly one. -/
theorem global_round_accounting (g : Globals) (m : Msg) :
    (∀ s : St,
       (on_completion_wc g { success := true, isRecv := false, msg := m }
           s).2.num_read_completed = s.num_read_completed + 1) ∧
    (∀ s : St, ¬s.num_read_completed + 1 = g.num_mr →
       (on_completion_wc g { success := true, isRecv := false, msg := m }
           s).2.global_num_finished = s.global_num_finished ∧
       (on_completion_wc g { success := true, isRecv := false, msg := m }
           s).2.global_samples = s.global_samples ∧
       (on_completion_wc g { success := true, isRecv := false, msg := m }
           s).2.lm_samples = s.lm_samples) ∧
    (∀ s : St, s.num_read_completed + 1 = g.num_mr →
       (on_completion_wc g { success := true, isRecv := false, msg := m }
           s).2.global_num_finished = s.global_num_finished + 1 ∧
       (on_completion_wc g { success := true, isRecv := false, msg := m }
           s).2.lm_samples = s.lm_samples + 1 ∧
       ((on_completion_wc g { success := true, isRecv := false, msg := m }
           s).2.global_samples = s.global_samples + 1 ↔
         s.global_num_finished + 1 = g.num_active)) ∧
    (∀ (k : Nat) (s : St), s.err = false → s.pending = false →
       s.num_read_completed + k = g.num_mr → 1 ≤ k →
       (server_run g
           (List.replicate k
             (Ev.wc { success := true, isRecv := false, msg := m }))
           s).global_num_finished = s.global_num_finished + 1) := by
  refine ⟨?_, ?_, ?_, round_of_reads_finishes_once g m⟩
  · intro s
    obtain ⟨c, nrc, rr, term, pend, err, posted, lm, gnf, gs, rd⟩ := s
    simp only [on_completion_wc]
    split_ifs <;> simp_all
  · intro s hne
    obtain ⟨c, nrc, rr, term, pend, err, posted, lm, gnf, gs, rd⟩ := s
    simp only at hne
    simp [on_completion_wc, hne]
  · intro s heq
    obtain ⟨c, nrc, rr, term, pend, err, posted, lm, gnf, gs, rd⟩ := s
    simp only at heq
    simp only [on_completion_wc, heq]
    split_ifs <;> (try contradiction) <;> simp_all

/-- Witness for C3: concrete below-N and at-N completions on N = 1 states.
-/
theorem global_round_accounting_witness :
    (on_completion_wc gW { success := true, isRecv := false, msg := mW }
        sArmedW).2.num_read_completed = sArmedW.num_read_completed + 1 ∧
    ((on_completion_wc gW { success := true, isRecv := false, msg := mW }
        sArmedW).2.global_num_finished = sArmedW.global_num_finished ∧
     (on_completion_wc gW { success := true, isRecv := false, msg := mW }
        sArmedW).2.global_samples = sArmedW.global_samples ∧
     (on_completion_wc gW { success := true, isRecv := false, msg := mW }
        sArmedW).2.lm_samples = sArmedW.lm_samples) ∧
    ((on_completion_wc gW { success := true, isRecv := false, msg := mW }
        sReadyW).2.global_num_finished = sReadyW.global_num_finished + 1 ∧
     (on_completion_wc gW { success := true, isRecv := false, msg := mW }
        sReadyW).2.lm_samples = sReadyW.lm_samples + 1 ∧
     ((on_completion_wc gW { success := true, isRecv := false, msg := mW }
        sReadyW).2.global_samples = sReadyW.global_samples + 1 ↔
       sReadyW.global_num_finished + 1 = gW.num_active)) ∧
    (server_run gW
        (List.replicate 1
          (Ev.wc { success := true, isRecv := false, msg := mW }))
        sReadyW).global_num_finished = sReadyW.global_num_finished + 1 := by
  refine ⟨(global_round_accounting gW mW).1 sArmedW,
    (global_round_accounting gW mW).2.1 sArmedW (by decide),
    (global_round_accounting gW mW).2.2.1 sReadyW (by decide),
    (global_round_accounting gW mW).2.2.2 1 sReadyW rfl rfl (by decide)
      (by decide)⟩

/-- C4: each scrape batch consists of exactly N = `num_mr` read work
requests, chained in index order and handed over in one `ibv_post_send` call
(one entry appended to `posted`); every request is an `IBV_WR_RDMA_READ`
with `IBV_SEND_SIGNALED` set, targets remote address `peer_mr.addr` + 0 with
the peer's rkey, has length `block_size`, and scatters into its own distinct
local sink buffer (`rdma_local_region[k]`) with that buffer's own local key
(`rdma_local_mr[k]->lkey`). -/
theorem read_batch_shape (g : Globals) (c : Conn) :
    (buildBatch g c).length = g.num_mr ∧
    (∀ k : Nat, k < g.num_mr →
       (buildBatch g c)[k]? = some (mkWR g c k)) ∧
    (∀ wr : WR, wr ∈ buildBatch g c →
       wr.opcode = Opcode.RDMA_READ ∧ wr.signaled = true ∧
       wr.remote_addr = c.peer_mr.addr + 0 ∧ wr.rkey = c.peer_mr.rkey ∧
       wr.length = g.block_size ∧ wr.laddr = c.local_addr wr.sink ∧
       wr.lkey = c.local_lkey wr.sink) ∧
    (buildBatch g c).map WR.sink = List.range g.num_mr ∧
    ((buildBatch g c).map WR.sink).Nodup ∧
    (∀ s : St, s.conn = c → s.terminate = false →
       (post_read_batch g s).posted = s.posted ++ [buildBatch g c]) := by
  have hmap : (buildBatch g c).map WR.sink = List.range g.num_mr := by
    have hcomp : WR.sink ∘ mkWR g c = id := funext fun k => rfl
    rw [buildBatch, List.map_map, hcomp, List.map_id]
  refine ⟨by simp [buildBatch], ?_, ?_, hmap, ?_, ?_⟩
  · intro k hk
    simp [buildBatch, List.getElem?_map, List.getElem?_range, hk]
  · intro wr hw
    simp only [buildBatch, List.mem_map, List.mem_range] at hw
    obtain ⟨k, -, rfl⟩ := hw
    simp [mkWR]
  · rw [hmap]
    exact List.nodup_range g.num_mr
  · intro s hc ht
    rw [post_read_batch_go g s ht]
    simp [hc]

/-- Witness for C4: the batch of the concrete armed state has its request 0
in place with all required attributes, and posting from that state appends
exactly that batch. -/
theorem read_batch_shape_witness :
    (buildBatch gW sArmedW.conn)[0]? = some (mkWR gW sArmedW.conn 0) ∧
    ((mkWR gW sArmedW.conn 0).opcode = Opcode.RDMA_READ ∧
     (mkWR gW sArmedW.conn 0).signaled = true ∧
     (mkWR gW sArmedW.conn 0).remote_addr
       = sArmedW.conn.peer_mr.addr + 0 ∧
     (mkWR gW sArmedW.conn 0).rkey = sArmedW.conn.peer_mr.rkey ∧
     (mkWR gW sArmedW.conn 0).length = gW.block_size ∧
     (mkWR gW sArmedW.conn 0).laddr
       = sArmedW.conn.local_addr (mkWR gW sArmedW.conn 0).sink ∧
     (mkWR gW sArmedW.conn 0).lkey
       = sArmedW.conn.local_lkey (mkWR gW sArmedW.conn 0).sink) ∧
    (post_read_batch gW sArmedW).posted
      = sArmedW.posted ++ [buildBatch gW sArmedW.conn] := by
  refine ⟨(read_batch_shape gW sArmedW.conn).2.1 0 (by decide),
    (read_batch_shape gW sArmedW.conn).2.2.1 (mkWR gW sArmedW.conn 0) ?_,
    (read_batch_shape gW sArmedW.conn).2.2.2.2.2 sArmedW rfl rfl⟩
  simp [buildBatch, gW]

theorem server_step_tick_pending (g : Globals) (s : St)
    (herr : s.err = false) (hp : s.pending = true)
    (ht : s.terminate = false) :
    server_step g Ev.tick s =
      { s with read_remote := false, pending := false,
               posted := s.posted ++ [buildBatch g s.conn],
               num_read_completed := 0, global_num_finished := 0 } := by
  obtain ⟨c, nrc, rr, term, pend, err, posted, lm, gnf, gs, rd⟩ := s
  simp only at herr hp ht
  subst herr
  subst hp
  subst ht
  simp [server_step, tick_signal, post_read_batch]

theorem buildBatch_remote_addrs (g : Globals) (c : Conn) :
    (buildBatch g c).map WR.remote_addr
      = List.replicate g.num_mr c.peer_mr.addr := by
  rw [buildBatch, List.map_map]
  have hcomp : WR.remote_addr ∘ mkWR g c = fun _ => c.peer_mr.addr :=
    funext fun k => rfl
  rw [hcomp]
  simp

/-- C9: the collector's per-connection poller initialises its completed-read
counter to N (`int num_read_completed = num_mr;` in `poll_cq`), so the very
first successful receive of the `MSG_MR` control message already satisfies
the `completed == N` arming condition: the poller parks on the condition
variable with no batch posted and zero READ completions processed, and the
first tick signal makes it post the first batch. -/
theorem initial_counter_arms_first_batch (g : Globals) (pm mr : PeerMR)
    (la lk : Nat → Nat) :
    (initState g pm la lk).num_read_completed = g.num_mr ∧
    (server_step g (Ev.wc (recvWC MsgType.MR mr))
        (initState g pm la lk)).posted = [] ∧
    (server_step g (Ev.wc (recvWC MsgType.MR mr))
        (initState g pm la lk)).pending = true ∧
    (server_step g (Ev.wc (recvWC MsgType.MR mr))
        (initState g pm la lk)).reads_done = 0 ∧
    (server_step g Ev.tick
        (server_step g (Ev.wc (recvWC MsgType.MR mr))
          (initState g pm la lk))).posted.length = 1 := by
  have hs1 : server_step g (Ev.wc (recvWC MsgType.MR mr))
      (initState g pm la lk) =
      { conn := { recv_state := 1, send_state := SendState.INIT,
                  peer_mr := mr, peer_mr_set := true,
                  local_addr := la, local_lkey := lk }
        num_read_completed := g.num_mr
        read_remote := false
        terminate := false
        pending := true
        err := false
        posted := []
        lm_samples := 0
        global_num_finished := 0
        global_samples := 0
        reads_done := 0 } := by
    simp [server_step, recvWC, on_completion_wc, arm_or_post, initState,
      initConn, RS_MR_RECV, RS_INIT]
  rw [hs1]
  refine ⟨rfl, rfl, rfl, rfl, ?_⟩
  rw [server_step_tick_pending g _ rfl rfl rfl]
  simp

/-- C10: on the collector, every successful RECV completion increments the
connection's recv-state regardless of the received tag, while the peer
memory-region descriptor is copied only when the tag is `MSG_MR`.
Consequently a first control message carrying the other tag (`MSG_DONE`)
still advances the connection to `RS_MR_RECV` and arms it, and the batch
posted on the next tick is built from a peer descriptor that was never set
(every request targets the uninitialised descriptor's address). -/
theorem recv_state_advances_regardless_of_tag (g : Globals)
    (pm mr : PeerMR) (la lk : Nat → Nat) :
    (∀ (t : MsgType) (m : PeerMR) (s : St),
       (on_completion_wc g (recvWC t m) s).2.conn.recv_state
         = s.conn.recv_state + 1) ∧
    (∀ (m : PeerMR) (s : St),
       (on_completion_wc g (recvWC MsgType.DONE m) s).2.conn.peer_mr
           = s.conn.peer_mr ∧
       (on_completion_wc g (recvWC MsgType.DONE m) s).2.conn.peer_mr_set
           = s.conn.peer_mr_set) ∧
    ((server_step g (Ev.wc (recvWC MsgType.DONE mr))
        (initState g pm la lk)).conn.recv_state = RS_MR_RECV ∧
     (server_step g (Ev.wc (recvWC MsgType.DONE mr))
        (initState g pm la lk)).conn.peer_mr_set = false ∧
     (server_step g (Ev.wc (recvWC MsgType.DONE mr))
        (initState g pm la lk)).pending = true ∧
     (server_step g Ev.tick
        (server_step g (Ev.wc (recvWC MsgType.DONE mr))
          (initState g pm la lk))).posted
       = [buildBatch g
            (server_step g (Ev.wc (recvWC MsgType.DONE mr))
              (initState g pm la lk)).conn] ∧
     ((buildBatch g
         (server_step g (Ev.wc (recvWC MsgType.DONE mr))
           (initState g pm la lk)).conn).map WR.remote_addr
       = List.replicate g.num_mr pm.addr) ∧
     (server_step g Ev.tick
        (server_step g (Ev.wc (recvWC MsgType.DONE mr))
          (initState g pm la lk))).conn.peer_mr_set = false) := by
  have hs1 : server_step g (Ev.wc (recvWC MsgType.DONE mr))
      (initState g pm la lk) =
      { conn := { recv_state := 1, send_state := SendState.INIT,
                  peer_mr := pm, peer_mr_set := false,
                  local_addr := la, local_lkey := lk }
        num_read_completed := g.num_mr
        read_remote := false
        terminate := false
        pending := true
        err := false
        posted := []
        lm_samples := 0
        global_num_finished := 0
        global_samples := 0
        reads_done := 0 } := by
    simp [server_step, recvWC, on_completion_wc, arm_or_post, initState,
      initConn, RS_MR_RECV, RS_INIT]
  refine ⟨?_, ?_, ?_⟩
  · intro t m s
    obtain ⟨c, nrc, rr, term, pend, err, posted, lm, gnf, gs, rd⟩ := s
    cases t <;> simp [on_completion_wc, recvWC]
  · intro m s
    obtain ⟨c, nrc, rr, term, pend, err, posted, lm, gnf, gs, rd⟩ := s
    simp [on_completion_wc, recvWC]
  · rw [hs1]
    rw [server_step_tick_pending g _ rfl rfl rfl]
    refine ⟨rfl, rfl, rfl, rfl, ?_, rfl⟩
    rw [buildBatch_remote_addrs]

theorem decDigits_len_le : ∀ (k n : Nat), n < 10 ^ k →
    (decDigits n).length ≤ k := by
  intro k
  induction k with
  | zero =>
    intro n hn
    interval_cases n
    simp [decDigits]
  | succ k ih =>
    intro n hn
    match n with
    | 0 => simp [decDigits]
    | Nat.succ m =>
      rw [decDigits]
      have hdiv : (m + 1) / 10 < 10 ^ k := by
        rw [Nat.div_lt_iff_lt_mul (by norm_num)]
        calc m + 1 < 10 ^ (k + 1) := hn
        _ = 10 ^ k * 10 := by rw [pow_succ]
      have := ih ((m + 1) / 10) hdiv
      simp only [List.length_append, List.length_singleton]
      omega

theorem shmNameBytes_len_le (pid : Nat) (h : pid < 2 ^ 32) :
    (shmNameBytes pid).length ≤ 256 := by
  have h10 : pid < 10 ^ 10 := lt_of_lt_of_le h (by norm_num)
  rw [shmNameBytes, decBytes]
  by_cases h0 : pid = 0
  · simp [h0]
  · have := decDigits_len_le 10 pid h10
    simp only [h0, if_false, List.length_append, List.length_map,
      reduceIte]
    have h4 : ([115, 104, 109, 45] : List Nat).length = 4 := rfl
    omega

theorem reply256_eq_of_le (a : List Nat) (h : a.length ≤ 256) :
    reply256 a = a ++ List.replicate (256 - a.length) 0 := by
  rw [reply256, List.take_append_eq_append_take, List.take_replicate,
    Nat.min_eq_left (Nat.sub_le _ _), List.take_of_length_le h]

theorem reply256_length (a : List Nat) : (reply256 a).length = 256 := by
  rw [reply256]
  simp only [List.length_take, List.length_append, List.length_replicate]
  omega

/-- C5: for every inbound pod registration with working syscalls, the host
agent reads a 4-byte unsigned integer in network byte order as the pod
identifier, creates the POSIX shared-memory object named `shm-<pod-id>` with
`O_CREAT | O_RDWR` and permissions `0666` and truncates it to the configured
block size, replies on the same TCP socket with the fixed-width 256-byte
zero-padded object name, and then closes the socket (before starting the
RDMA session and ending the handler thread). -/
theorem pod_registration_protocol (bs b0 b1 b2 b3 : Nat)
    (h0 : b0 ≤ 255) (h1 : b1 ≤ 255) (h2 : b2 ≤ 255) (h3 : b3 ≤ 255) :
    handleNewPod bs true b0 b1 b2 b3 true =
      { steps :=
          [PodHandlerStep.recvPodId,
           PodHandlerStep.shmOpen
             (shmNameBytes (ntohlBytes b0 b1 b2 b3)) true 0o666,
           PodHandlerStep.ftruncateTo bs,
           PodHandlerStep.sendBytes
             (shmNameBytes (ntohlBytes b0 b1 b2 b3) ++
              List.replicate
                (256 - (shmNameBytes (ntohlBytes b0 b1 b2 b3)).length) 0),
           PodHandlerStep.closeSocket,
           PodHandlerStep.rdmaSession (ntohlBytes b0 b1 b2 b3)]
        terminal := HandlerTerminal.threadExit } ∧
    ntohlBytes b0 b1 b2 b3 = ((b0 * 256 + b1) * 256 + b2) * 256 + b3 ∧
    (reply256 (shmNameBytes (ntohlBytes b0 b1 b2 b3))).length = 256 := by
  have hpid : ntohlBytes b0 b1 b2 b3 < 2 ^ 32 := by
    rw [ntohlBytes]
    omega
  have hlen := shmNameBytes_len_le _ hpid
  refine ⟨?_, rfl, reply256_length _⟩
  rw [handleNewPod]
  simp only [Bool.true_eq_false, if_false, reduceIte]
  rw [reply256_eq_of_le _ hlen]

/-- Witness for C5: the registration of pod id 1111 (wire bytes
0, 0, 4, 87). -/
theorem pod_registration_protocol_witness :
    handleNewPod 1024 true 0 0 4 87 true =
      { steps :=
          [PodHandlerStep.recvPodId,
           PodHandlerStep.shmOpen
             (shmNameBytes (ntohlBytes 0 0 4 87)) true 0o666,
           PodHandlerStep.ftruncateTo 1024,
           PodHandlerStep.sendBytes
             (shmNameBytes (ntohlBytes 0 0 4 87) ++
              List.replicate
                (256 - (shmNameBytes (ntohlBytes 0 0 4 87)).length) 0),
           PodHandlerStep.closeSocket,
           PodHandlerStep.rdmaSession (ntohlBytes 0 0 4 87)]
        terminal := HandlerTerminal.threadExit } ∧
    ntohlBytes 0 0 4 87 = ((0 * 256 + 0) * 256 + 4) * 256 + 87 ∧
    (reply256 (shmNameBytes (ntohlBytes 0 0 4 87))).length = 256 :=
  pod_registration_protocol 1024 0 0 4 87 (by decide) (by decide)
    (by decide) (by decide)

/-- C6 counterexample: a failing `recv` in the per-pod handler does not kill
only that handler thread — `handleNewPod` runs `exit(EXIT_FAILURE)`
(`c/src/agent.c` lines 133-136), modelled as `HandlerTerminal.processExit`,
which terminates the entire agent process including the TCP accept loop.
A handler-only termination would be `HandlerTerminal.threadExit`. -/
theorem handler_failure_counterexample :
    (handleNewPod 1024 false 0 0 0 0 true).terminal
        = HandlerTerminal.processExit 1 ∧
    (handleNewPod 1024 false 0 0 0 0 true).terminal
        ≠ HandlerTerminal.threadExit := by
  constructor
  · rfl
  · decide

/-- C6 (amended): a syscall failure inside the per-pod handler — the `recv`
of the pod identifier or `shm_open` failing — makes the handler call
`exit(EXIT_FAILURE)`, terminating the entire agent process (accept loop
included), not just the handler thread. -/
theorem handler_failure_exits_process (bs b0 b1 b2 b3 : Nat)
    (sOk : Bool) :
    (handleNewPod bs false b0 b1 b2 b3 sOk).terminal
        = HandlerTerminal.processExit 1 ∧
    (handleNewPod bs true b0 b1 b2 b3 false).terminal
        = HandlerTerminal.processExit 1 := by
  constructor
  · rfl
  · rfl

/-- C7 counterexample: on the host agent, a received control message with
the unexpected tag `MSG_MR` makes `on_completion` call `exit(1)`
(`src/rdma-agent.c` lines 213-217), modelled as
`AgentWcResult.processExit 1`: the entire agent process terminates, not just
that connection (a connection-only failure would be a `ret 1`, as for a
completion-status error). -/
theorem unexpected_tag_counterexample :
    agent_on_completion (recvWC MsgType.MR pmW)
        { recv_state := RS_INIT, send_state := SendState.MR_SENT }
      = AgentWcResult.processExit 1 ∧
    agent_on_completion (recvWC MsgType.MR pmW)
        { recv_state := RS_INIT, send_state := SendState.MR_SENT }
      ≠ AgentWcResult.ret 1
          { recv_state := RS_INIT, send_state := SendState.MR_SENT } false ∧
    agent_on_completion (recvWC MsgType.MR pmW)
        { recv_state := RS_INIT, send_state := SendState.MR_SENT }
      ≠ AgentWcResult.ret 1
          { recv_state := RS_INIT, send_state := SendState.MR_SENT } true := by
  refine ⟨rfl, by decide, by decide⟩

/-- C7 (amended): when the host agent's completion handler receives a
control message whose tag is not `MSG_DONE`, it calls `exit(1)` — fatal to
the entire agent process, not only to that connection.  (By contrast, a
non-success completion status merely makes the handler return 1, which
terminates only that connection's poller.) -/
theorem unexpected_tag_exits_process (c : AConn) (m : PeerMR)
    (isR : Bool) (msg : Msg) :
    agent_on_completion (recvWC MsgType.MR m) c
        = AgentWcResult.processExit 1 ∧
    agent_on_completion { success := false, isRecv := isR, msg := msg } c
        = AgentWcResult.ret 1 c false := by
  constructor
  · rfl
  · rfl

/-- C8: evaluation of the code at the failing input.  The pod's TCP hello
(`container-ipc/pod.c` line 89) sends `htonl(rand() % 10)`, not the pod's
own process id: a pod whose OS pid is 12345 and whose `rand()` returned
12347 registers the identifier 7 (and every registered identifier lies below
10, whatever the pid).  The liveness watcher then probes pid 7 instead of
12345 — with 12345 the only live process, `stepSlot` disconnects the live
pod's connection and writes the sentinel — while a sentinel slot is never
disconnected again. -/
theorem pod_hello_random_id_mismatch :
    podHelloId 12347 = 7 ∧
    podHelloId 12347 ≠ 12345 ∧
    (∀ r : Nat, podHelloId r < 10) ∧
    stepSlot (fun p => p == 12345) ((podHelloId 12347 : Nat) : Int)
      = (-1, true) ∧
    stepSlot (fun p => p == 12345) (-1) = (-1, false) := by
  refine ⟨rfl, by decide, ?_, by decide, by decide⟩
  intro r
  exact Nat.mod_lt r (by norm_num)
